import Mathlib

set_option maxRecDepth 100000

/-!
Verification of `scripts/ingest_confluence.py` (privateGPT Confluence ingestor).

The script defines one class, `LocalIngestWorker`, whose method `ingest_space`
loads all documents of a Confluence space through a single eager
`confluence_loader.load(space_key, include_attachments=True, limit=1000,
max_pages=10000000)` call and then, in a `for` loop over the returned list,
computes `hashlib.sha1(d.page_content.encode("utf-8")).hexdigest()` and calls
`self.ingest_service.ingest_text(hexdigest, d.page_content)` once per document.

The development below embeds this shallowly:
  * SHA-1 (FIPS 180) over byte lists, with Nat arithmetic mod 2^32;
  * UTF-8 encoding of strings;
  * the ingest loop, with the external ingestion collaborator modelled as a
    function `String → String → Option ε` (`none` = success, `some e` = the
    collaborator raised `e`, which the loop propagates uncaught);
  * the worker state (`total_documents`, `current_document_count`) threaded
    explicitly;
  * an event-level trace (fetch / hash / submit) for the temporal ordering
    claims.
-/

/-! ### SHA-1 over byte lists (bytes and words are Nat, words reduced mod 2^32) -/

/-- Truncate to a 32-bit word. -/
def w32 (x : Nat) : Nat := x % 4294967296

/-- Left rotation of a 32-bit word by `n` bits. -/
def rotl (n x : Nat) : Nat := w32 ((x <<< n) ||| (x >>> (32 - n)))

/-- Big-endian 8-byte encoding of the message bit length. -/
def lenBytes (bitLen : Nat) : List Nat :=
  [(bitLen >>> 56) % 256, (bitLen >>> 48) % 256, (bitLen >>> 40) % 256,
   (bitLen >>> 32) % 256, (bitLen >>> 24) % 256, (bitLen >>> 16) % 256,
   (bitLen >>> 8) % 256, bitLen % 256]

/-- SHA-1 padding: append `0x80`, zero bytes up to 56 mod 64, then the
bit length as 8 big-endian bytes. -/
def pad (m : List Nat) : List Nat :=
  m ++ [0x80] ++ List.replicate ((119 - m.length % 64) % 64) 0 ++ lenBytes (8 * m.length)

/-- Group a 64-byte block into 16 big-endian 32-bit words. -/
def toWords : List Nat → List Nat
  | b0 :: b1 :: b2 :: b3 :: rest =>
      ((b0 <<< 24) ||| (b1 <<< 16) ||| (b2 <<< 8) ||| b3) :: toWords rest
  | _ => []

/-- One step of the SHA-1 message-schedule expansion:
`w[i] = rotl1 (w[i-3] xor w[i-8] xor w[i-14] xor w[i-16])` with `i = ws.length`. -/
def expandStep (ws : List Nat) : List Nat :=
  ws ++ [rotl 1 ((ws.getD (ws.length - 3) 0) ^^^ (ws.getD (ws.length - 8) 0) ^^^
                 (ws.getD (ws.length - 14) 0) ^^^ (ws.getD (ws.length - 16) 0))]

/-- Run `expandStep` a given number of times (fuel-driven for structural
recursion; 64 steps take the 16 block words to the 80 scheduled words). -/
def expandFrom : Nat → List Nat → List Nat
  | 0, ws => ws
  | fuel + 1, ws => expandFrom fuel (expandStep ws)

/-- The 80-word SHA-1 message schedule of a block's 16 words. -/
def expandWords (ws : List Nat) : List Nat := expandFrom (80 - ws.length) ws

/-- The SHA-1 round function and constant for round `t`. -/
def fK (t b c d : Nat) : Nat × Nat :=
  if t < 20 then ((b &&& c) ||| ((b ^^^ 4294967295) &&& d), 0x5A827999)
  else if t < 40 then (b ^^^ c ^^^ d, 0x6ED9EBA1)
  else if t < 60 then ((b &&& c) ||| (b &&& d) ||| (c &&& d), 0x8F1BBCDC)
  else (b ^^^ c ^^^ d, 0xCA62C1D6)

/-- One SHA-1 compression round on state `(a,b,c,d,e)` with round index and
scheduled word `(t, wt)`. -/
def sha1Round (st : Nat × Nat × Nat × Nat × Nat) (tw : Nat × Nat) :
    Nat × Nat × Nat × Nat × Nat :=
  let (a, b, c, d, e) := st
  let (t, wt) := tw
  let (f, k) := fK t b c d
  (w32 (rotl 5 a + f + e + k + wt), a, rotl 30 b, c, d)

/-- Process one 64-byte block: expand the schedule, run 80 rounds, add the
result into the chaining state mod 2^32. -/
def processBlock (h : Nat × Nat × Nat × Nat × Nat) (block : List Nat) :
    Nat × Nat × Nat × Nat × Nat :=
  let ws := expandWords (toWords block)
  let (h0, h1, h2, h3, h4) := h
  let (a, b, c, d, e) := (ws.enum.map (fun p => (p.1, p.2))).foldl sha1Round h
  (w32 (h0 + a), w32 (h1 + b), w32 (h2 + c), w32 (h3 + d), w32 (h4 + e))

/-- Fold `processBlock` over the message 64 bytes at a time (fuel-driven;
fuel the padded length, which bounds the block count). -/
def processBlocks : Nat → (Nat × Nat × Nat × Nat × Nat) → List Nat →
    Nat × Nat × Nat × Nat × Nat
  | 0, h, _ => h
  | _, h, [] => h
  | fuel + 1, h, m => processBlocks fuel (processBlock h (m.take 64)) (m.drop 64)

/-- SHA-1 initial chaining state. -/
def initH : Nat × Nat × Nat × Nat × Nat :=
  (0x67452301, 0xEFCDAB89, 0x98BADCFE, 0x10325476, 0xC3D2E1F0)

/-- Big-endian 4-byte split of a 32-bit word. -/
def wordBytes (x : Nat) : List Nat :=
  [(x >>> 24) % 256, (x >>> 16) % 256, (x >>> 8) % 256, x % 256]

/-- The 20-byte (160-bit) SHA-1 digest of a byte list. -/
def sha1Bytes (m : List Nat) : List Nat :=
  let p := pad m
  let h := processBlocks p.length initH p
  wordBytes h.1 ++ wordBytes h.2.1 ++ wordBytes h.2.2.1 ++
    wordBytes h.2.2.2.1 ++ wordBytes h.2.2.2.2

/-- Lowercase hex digit of `n < 16`. -/
def hexChar (n : Nat) : Char := if n < 10 then Char.ofNat (48 + n) else Char.ofNat (87 + n)

/-- Two-character lowercase hex rendering of a byte. -/
def byteHex (b : Nat) : List Char := [hexChar (b / 16), hexChar (b % 16)]

/-- `hashlib.sha1(m).hexdigest()`: the 40-character lowercase hex string of
the 20-byte SHA-1 digest. -/
def sha1Hexdigest (m : List Nat) : String :=
  String.mk ((sha1Bytes m).map byteHex).flatten

/-! ### UTF-8 encoding (`str.encode("utf-8")`) -/

/-- Standard UTF-8 byte encoding of a single code point. -/
def utf8EncodeChar (c : Char) : List Nat :=
  let n := c.toNat
  if n < 0x80 then [n]
  else if n < 0x800 then
    [0xC0 ||| (n >>> 6), 0x80 ||| (n &&& 0x3F)]
  else if n < 0x10000 then
    [0xE0 ||| (n >>> 12), 0x80 ||| ((n >>> 6) &&& 0x3F), 0x80 ||| (n &&& 0x3F)]
  else
    [0xF0 ||| (n >>> 18), 0x80 ||| ((n >>> 12) &&& 0x3F),
     0x80 ||| ((n >>> 6) &&& 0x3F), 0x80 ||| (n &&& 0x3F)]

/-- UTF-8 byte encoding of a string. -/
def utf8Encode (s : String) : List Nat := (s.data.map utf8EncodeChar).flatten

/-- The document identifier the script computes:
`hashlib.sha1(text.encode("utf-8")).hexdigest()`. -/
def doc_id (text : String) : String := sha1Hexdigest (utf8Encode text)

/-! ### The ingest worker -/

/-- A document as returned by the Confluence loader: the script only reads
its `page_content` text field. -/
structure Document where
  page_content : String
deriving DecidableEq

/-- One call to `ingest_service.ingest_text(doc_id, text)`: the
(identifier, content) pair submitted to the ingestion collaborator. -/
structure Ingestion where
  doc_id : String
  text : String
deriving DecidableEq

/-- The submission the loop body builds for a document:
`(sha1(page_content.encode("utf-8")).hexdigest(), page_content)`. -/
def toIngestion (d : Document) : Ingestion :=
  ⟨doc_id d.page_content, d.page_content⟩

/-- The `for d in documents:` loop of `ingest_space`. The collaborator `svc`
models `ingest_service.ingest_text`: `none` is success, `some e` is a raised
exception, which the loop neither catches nor retries — it stops the
iteration and propagates. Returns the list of submissions attempted (in
order) and the propagated exception, if any. -/
def ingestLoop {ε : Type} (svc : String → String → Option ε) :
    List Document → List Ingestion × Option ε
  | [] => ([], none)
  | d :: rest =>
      let sha1 := sha1Hexdigest (utf8Encode d.page_content)
      match svc sha1 d.page_content with
      | some e => ([⟨sha1, d.page_content⟩], some e)
      | none =>
          let r := ingestLoop svc rest
          (⟨sha1, d.page_content⟩ :: r.1, r.2)

/-- The worker of the script. `ingest_text` and `load` model the external
collaborators stored in `self.ingest_service` and `self.confluence_loader`
(`load` takes the space key, `include_attachments`, `limit`, `max_pages`);
`total_documents` and `current_document_count` are the two integer
attributes `__init__` sets. -/
structure LocalIngestWorker (ε : Type) where
  ingest_text : String → String → Option ε
  load : String → Bool → Nat → Nat → List Document
  total_documents : Nat
  current_document_count : Nat

/-- `LocalIngestWorker.__init__`: stores the collaborators and sets
`total_documents = 0` and `current_document_count = 0`. -/
def LocalIngestWorker.init {ε : Type} (svc : String → String → Option ε)
    (loader : String → Bool → Nat → Nat → List Document) : LocalIngestWorker ε :=
  { ingest_text := svc, load := loader, total_documents := 0, current_document_count := 0 }

/-- `ingest_space(space)`: one eager `confluence_loader.load(space_key=space,
include_attachments=True, limit=1000, max_pages=10000000)` call retrieves all
documents, then the loop submits each. The method assigns no attribute, so
the worker is returned unchanged; the submissions and the propagated
exception (if any) are the observable effect. -/
def LocalIngestWorker.ingest_space {ε : Type} (w : LocalIngestWorker ε) (space : String) :
    LocalIngestWorker ε × List Ingestion × Option ε :=
  let documents := w.load space true 1000 10000000
  (w, ingestLoop w.ingest_text documents)

/-- Run `ingest_space` once per space key in a list, threading the worker. -/
def runSpaces {ε : Type} (w : LocalIngestWorker ε) : List String → LocalIngestWorker ε
  | [] => w
  | s :: rest => runSpaces (w.ingest_space s).1 rest

/-! ### Event-level trace of one `ingest_space` call

For the temporal ordering claims, each document gives three events: its
fetch (performed inside the single `load` call), its hashing, and its
submission. `load` is eager: it returns the full list, so every document's
fetch completes before the loop starts. -/

/-- Events of one `ingest_space` run over `n` documents, indexed 0-based. -/
inductive Event where
  | fetch (i : Nat)
  | hash (i : Nat)
  | submit (i : Nat)
deriving DecidableEq

/-- Fetch events of the single `load` call, in document order. -/
def fetchTrace : Nat → List Event
  | 0 => []
  | n + 1 => fetchTrace n ++ [Event.fetch n]

/-- Events of the loop: iteration `i` hashes document `i` then submits it. -/
def procTrace : Nat → List Event
  | 0 => []
  | n + 1 => procTrace n ++ [Event.hash n, Event.submit n]

/-- The event trace of `ingest_space` on a space of `n` documents (no
collaborator failure): the `load` call fetches all `n` documents, then the
loop hashes and submits them one by one. -/
def ingestTrace (n : Nat) : List Event := fetchTrace n ++ procTrace n

/-! ### Concrete instances (for closed scenarios and witnesses) -/

/-- A collaborator that always succeeds. -/
def svcOk {ε : Type} : String → String → Option ε := fun _ _ => none

/-- A collaborator that raises "boom" exactly on content "b". -/
def svcFailB : String → String → Option String :=
  fun _ t => if t = "b" then some "boom" else none

/-- A loader returning a fixed document list for every space. -/
def constLoader (docs : List Document) : String → Bool → Nat → Nat → List Document :=
  fun _ _ _ _ => docs

def docsABC : List Document := [⟨"a"⟩, ⟨"b"⟩, ⟨"c"⟩]

def wAbc : LocalIngestWorker Unit := LocalIngestWorker.init svcOk (constLoader [⟨"abc"⟩])

def wAbc2 : LocalIngestWorker Unit :=
  LocalIngestWorker.init svcOk (constLoader [⟨"abc"⟩, ⟨"abc"⟩])

def wAB : LocalIngestWorker Unit := LocalIngestWorker.init svcOk (constLoader [⟨"a"⟩, ⟨"b"⟩])

def wFail : LocalIngestWorker String := LocalIngestWorker.init svcFailB (constLoader docsABC)

def wEmpty : LocalIngestWorker Unit := LocalIngestWorker.init svcOk (constLoader [])

def wHello : LocalIngestWorker Unit :=
  LocalIngestWorker.init svcOk (constLoader [⟨"Hello world"⟩, ⟨"Hello world"⟩])

def wEmptyDoc : LocalIngestWorker Unit := LocalIngestWorker.init svcOk (constLoader [⟨""⟩])

def wX1 : LocalIngestWorker Unit := LocalIngestWorker.init svcOk (constLoader [⟨"x"⟩])

def wX2 : LocalIngestWorker Bool := LocalIngestWorker.init svcOk (constLoader [⟨"x"⟩])

/-! ### Helper lemmas -/

theorem sha1_test_vector_abc :
    sha1Hexdigest (utf8Encode "abc") = "a9993e364706816aba3e25717850c26c9cd0d89d" := by
  decide

theorem sha1_test_vector_empty :
    sha1Hexdigest [] = "da39a3ee5e6b4b0d3255bfef95601890afd80709" := by
  decide

theorem sha1Bytes_length (m : List Nat) : (sha1Bytes m).length = 20 := by
  simp [sha1Bytes, wordBytes]

theorem sha1Hexdigest_length (m : List Nat) : (sha1Hexdigest m).length = 40 := by
  have h : ∀ l : List Nat, ((l.map byteHex).flatten).length = 2 * l.length := by
    intro l
    induction l with
    | nil => simp
    | cons b t ih => simp [byteHex, ih]; ring
  simp [sha1Hexdigest, String.length, h, sha1Bytes_length]

theorem ingestLoop_mem_doc_id {ε : Type} (svc : String → String → Option ε) :
    ∀ docs : List Document, ∀ p ∈ (ingestLoop svc docs).1, p.doc_id = doc_id p.text := by
  intro docs
  induction docs with
  | nil => intro p hp; simp [ingestLoop] at hp
  | cons d rest ih =>
      intro p hp
      simp only [ingestLoop] at hp
      cases h : svc (sha1Hexdigest (utf8Encode d.page_content)) d.page_content with
      | some e =>
          rw [h] at hp
          simp at hp
          subst hp
          rfl
      | none =>
          rw [h] at hp
          simp at hp
          rcases hp with hp | hp
          · subst hp; rfl
          · exact ih p hp

theorem ingestLoop_all_ok {ε : Type} (svc : String → String → Option ε)
    (docs : List Document)
    (h : ∀ d ∈ docs, svc (doc_id d.page_content) d.page_content = none) :
    ingestLoop svc docs = (docs.map toIngestion, none) := by
  induction docs with
  | nil => simp [ingestLoop]
  | cons d rest ih =>
      have hd : svc (sha1Hexdigest (utf8Encode d.page_content)) d.page_content = none :=
        h d (List.mem_cons_self d rest)
      simp only [ingestLoop, hd]
      rw [ih (fun d' hd' => h d' (List.mem_cons_of_mem d hd'))]
      rfl

theorem ingestLoop_fail_at {ε : Type} (svc : String → String → Option ε) :
    ∀ (docs : List Document) (k : Nat) (e : ε), k < docs.length →
    (∀ j, j < k →
      svc (doc_id (docs.getD j ⟨""⟩).page_content) (docs.getD j ⟨""⟩).page_content = none) →
    svc (doc_id (docs.getD k ⟨""⟩).page_content) (docs.getD k ⟨""⟩).page_content = some e →
    ingestLoop svc docs = ((docs.take (k + 1)).map toIngestion, some e) := by
  intro docs
  induction docs with
  | nil => intro k e hk; simp at hk
  | cons d rest ih =>
      intro k e hk hok hfail
      cases k with
      | zero =>
          simp only [List.getD_cons_zero, doc_id] at hfail
          simp only [ingestLoop, hfail]
          rfl
      | succ k' =>
          have hd : svc (sha1Hexdigest (utf8Encode d.page_content)) d.page_content = none := by
            have := hok 0 (Nat.succ_pos k')
            simpa [doc_id] using this
          simp only [ingestLoop, hd]
          rw [ih k' e (by simpa using hk)
            (fun j hj => by simpa using hok (j + 1) (Nat.succ_lt_succ hj))
            (by simpa using hfail)]
          rfl

theorem runSpaces_total {ε : Type} (spaces : List String) :
    ∀ w : LocalIngestWorker ε, runSpaces w spaces = w := by
  induction spaces with
  | nil => intro w; rfl
  | cons s rest ih => intro w; simpa [runSpaces, LocalIngestWorker.ingest_space] using ih w

theorem length_fetchTrace (n : Nat) : (fetchTrace n).length = n := by
  induction n with
  | zero => rfl
  | succ n ih => simp [fetchTrace, ih]

theorem length_procTrace (n : Nat) : (procTrace n).length = 2 * n := by
  induction n with
  | zero => rfl
  | succ n ih => simp [procTrace, ih]; ring

theorem fetch_mem_fetchTrace {i n : Nat} : Event.fetch i ∈ fetchTrace n ↔ i < n := by
  induction n with
  | zero => simp [fetchTrace]
  | succ n ih => simp [fetchTrace, ih]; omega

theorem hash_not_mem_fetchTrace (i n : Nat) : Event.hash i ∉ fetchTrace n := by
  induction n with
  | zero => simp [fetchTrace]
  | succ n ih => simp [fetchTrace, ih]

theorem submit_not_mem_fetchTrace (i n : Nat) : Event.submit i ∉ fetchTrace n := by
  induction n with
  | zero => simp [fetchTrace]
  | succ n ih => simp [fetchTrace, ih]

theorem hash_mem_procTrace {i n : Nat} : Event.hash i ∈ procTrace n ↔ i < n := by
  induction n with
  | zero => simp [procTrace]
  | succ n ih => simp [procTrace, ih]; omega

theorem submit_mem_procTrace {i n : Nat} : Event.submit i ∈ procTrace n ↔ i < n := by
  induction n with
  | zero => simp [procTrace]
  | succ n ih => simp [procTrace, ih]; omega

theorem indexOf_fetchTrace {i n : Nat} (h : i < n) :
    (fetchTrace n).indexOf (Event.fetch i) = i := by
  induction n with
  | zero => omega
  | succ n ih =>
      rw [fetchTrace]
      rcases Nat.lt_or_ge i n with hi | hi
      · rw [List.indexOf_append_of_mem (fetch_mem_fetchTrace.mpr hi)]
        exact ih hi
      · have hin : i = n := by omega
        subst hin
        rw [List.indexOf_append_of_not_mem (by simp [fetch_mem_fetchTrace])]
        simp [length_fetchTrace]

theorem indexOf_procTrace_hash {i n : Nat} (h : i < n) :
    (procTrace n).indexOf (Event.hash i) = 2 * i := by
  induction n with
  | zero => omega
  | succ n ih =>
      rw [procTrace]
      rcases Nat.lt_or_ge i n with hi | hi
      · rw [List.indexOf_append_of_mem (hash_mem_procTrace.mpr hi)]
        exact ih hi
      · have hin : i = n := by omega
        subst hin
        rw [List.indexOf_append_of_not_mem (by simp [hash_mem_procTrace])]
        simp [length_procTrace]

theorem indexOf_procTrace_submit {i n : Nat} (h : i < n) :
    (procTrace n).indexOf (Event.submit i) = 2 * i + 1 := by
  induction n with
  | zero => omega
  | succ n ih =>
      rw [procTrace]
      rcases Nat.lt_or_ge i n with hi | hi
      · rw [List.indexOf_append_of_mem (submit_mem_procTrace.mpr hi)]
        exact ih hi
      · have hin : i = n := by omega
        subst hin
        rw [List.indexOf_append_of_not_mem (by simp [submit_mem_procTrace])]
        rw [List.indexOf_cons_ne _ (by simp)]
        simp [length_procTrace]

theorem indexOf_ingestTrace_fetch {j n : Nat} (h : j < n) :
    (ingestTrace n).indexOf (Event.fetch j) = j := by
  rw [ingestTrace, List.indexOf_append_of_mem (fetch_mem_fetchTrace.mpr h)]
  exact indexOf_fetchTrace h

theorem indexOf_ingestTrace_hash {i n : Nat} (h : i < n) :
    (ingestTrace n).indexOf (Event.hash i) = n + 2 * i := by
  rw [ingestTrace, List.indexOf_append_of_not_mem (hash_not_mem_fetchTrace i n),
    length_fetchTrace, indexOf_procTrace_hash h]

theorem indexOf_ingestTrace_submit {i n : Nat} (h : i < n) :
    (ingestTrace n).indexOf (Event.submit i) = n + 2 * i + 1 := by
  rw [ingestTrace, List.indexOf_append_of_not_mem (submit_not_mem_fetchTrace i n),
    length_fetchTrace, indexOf_procTrace_submit h]
  omega

/-- Formalisation of claim C9's ordering statement: in the event trace of a
run over `n` documents, the submission of every earlier document precedes
the fetch of every later document. -/
def submitBeforeLaterFetch (n : Nat) : Prop :=
  ∀ j, j < n → ∀ i, i < j →
    (ingestTrace n).indexOf (Event.submit i) < (ingestTrace n).indexOf (Event.fetch j)

/-! ### Claims -/

/-- C1: every (identifier, content) pair that `ingest_space` submits to the
ingestion collaborator carries as identifier the SHA-1 hex digest of the
UTF-8 encoding of that content — a 160-bit (20-byte) digest, rendered as 40
hex characters. -/
theorem C1_submitted_id_is_sha1 {ε : Type} (w : LocalIngestWorker ε) (space : String)
    (p : Ingestion) (hp : p ∈ (w.ingest_space space).2.1) :
    p.doc_id = sha1Hexdigest (utf8Encode p.text) ∧
    (sha1Bytes (utf8Encode p.text)).length = 20 ∧ p.doc_id.length = 40 := by
  have h1 : p.doc_id = doc_id p.text :=
    ingestLoop_mem_doc_id w.ingest_text (w.load space true 1000 10000000) p hp
  refine ⟨h1, sha1Bytes_length _, ?_⟩
  rw [h1]
  exact sha1Hexdigest_length _

theorem C1_witness :
    (⟨"a9993e364706816aba3e25717850c26c9cd0d89d", "abc"⟩ : Ingestion) ∈
      (wAbc.ingest_space "SPACE").2.1 ∧
    ("a9993e364706816aba3e25717850c26c9cd0d89d" : String) =
      sha1Hexdigest (utf8Encode "abc") ∧
    (sha1Bytes (utf8Encode "abc")).length = 20 ∧
    ("a9993e364706816aba3e25717850c26c9cd0d89d" : String).length = 40 :=
  ⟨by decide,
   C1_submitted_id_is_sha1 wAbc "SPACE"
     ⟨"a9993e364706816aba3e25717850c26c9cd0d89d", "abc"⟩ (by decide)⟩

/-- C2: the identifier is a pure deterministic function of content — any two
submissions with identical content carry equal identifiers. -/
theorem C2_content_determines_id {ε : Type} (w : LocalIngestWorker ε) (space : String)
    (p q : Ingestion) (hp : p ∈ (w.ingest_space space).2.1)
    (hq : q ∈ (w.ingest_space space).2.1) (ht : p.text = q.text) :
    p.doc_id = q.doc_id := by
  have h1 := ingestLoop_mem_doc_id w.ingest_text (w.load space true 1000 10000000) p hp
  have h2 := ingestLoop_mem_doc_id w.ingest_text (w.load space true 1000 10000000) q hq
  rw [h1, h2, ht]

theorem C2_witness :
    (⟨"a9993e364706816aba3e25717850c26c9cd0d89d", "abc"⟩ : Ingestion) ∈
      (wAbc2.ingest_space "SPACE").2.1 ∧
    ("abc" : String) = "abc" ∧
    ("a9993e364706816aba3e25717850c26c9cd0d89d" : String) =
      "a9993e364706816aba3e25717850c26c9cd0d89d" :=
  ⟨by decide, rfl,
   C2_content_determines_id wAbc2 "SPACE"
     ⟨"a9993e364706816aba3e25717850c26c9cd0d89d", "abc"⟩
     ⟨"a9993e364706816aba3e25717850c26c9cd0d89d", "abc"⟩ (by decide) (by decide) rfl⟩

/-- C3: when the collaborator raises on no input, a space of N documents
yields exactly N submissions, one per document, in retrieval order — the
submission list is exactly the document list mapped to its
(identifier, content) pair. -/
theorem C3_exactly_n_in_order {ε : Type} (w : LocalIngestWorker ε) (space : String)
    (hsvc : ∀ i t, w.ingest_text i t = none) :
    (w.ingest_space space).2.1 = (w.load space true 1000 10000000).map toIngestion ∧
    (w.ingest_space space).2.1.length = (w.load space true 1000 10000000).length := by
  have h := ingestLoop_all_ok w.ingest_text (w.load space true 1000 10000000)
    (fun d _ => hsvc _ _)
  have hmain : (w.ingest_space space).2.1 = (w.load space true 1000 10000000).map toIngestion := by
    simp only [LocalIngestWorker.ingest_space, h]
  exact ⟨hmain, by rw [hmain, List.length_map]⟩

theorem C3_witness :
    (∀ i t, wAB.ingest_text i t = none) ∧
    (wAB.ingest_space "SPACE").2.1 =
      (wAB.load "SPACE" true 1000 10000000).map toIngestion ∧
    (wAB.ingest_space "SPACE").2.1.length =
      (wAB.load "SPACE" true 1000 10000000).length :=
  ⟨fun _ _ => rfl,
   (C3_exactly_n_in_order wAB "SPACE" (fun _ _ => rfl)).1,
   (C3_exactly_n_in_order wAB "SPACE" (fun _ _ => rfl)).2⟩

/-- C4: if the collaborator succeeds on the first k documents and raises on
document k, the run submits exactly documents 0..k (the failing one's
submission is the attempted call that raised), propagates the exception, and
attempts no submission for any later document. -/
theorem C4_abort_on_first_failure {ε : Type} (w : LocalIngestWorker ε) (space : String)
    (docs : List Document) (k : Nat) (e : ε)
    (hdocs : w.load space true 1000 10000000 = docs)
    (hk : k < docs.length)
    (hok : ∀ j, j < k →
      w.ingest_text (doc_id (docs.getD j ⟨""⟩).page_content)
        (docs.getD j ⟨""⟩).page_content = none)
    (hfail : w.ingest_text (doc_id (docs.getD k ⟨""⟩).page_content)
        (docs.getD k ⟨""⟩).page_content = some e) :
    (w.ingest_space space).2 = ((docs.take (k + 1)).map toIngestion, some e) := by
  have h := ingestLoop_fail_at w.ingest_text docs k e hk hok hfail
  simp only [LocalIngestWorker.ingest_space, hdocs, h]

theorem C4_witness :
    (wFail.load "SPACE" true 1000 10000000 = docsABC) ∧
    (1 < docsABC.length) ∧
    (∀ j, j < 1 →
      wFail.ingest_text (doc_id (docsABC.getD j ⟨""⟩).page_content)
        (docsABC.getD j ⟨""⟩).page_content = none) ∧
    (wFail.ingest_text (doc_id (docsABC.getD 1 ⟨""⟩).page_content)
      (docsABC.getD 1 ⟨""⟩).page_content = some "boom") ∧
    (wFail.ingest_space "SPACE").2 = ((docsABC.take (1 + 1)).map toIngestion, some "boom") :=
  ⟨rfl, by decide, by decide, by decide,
   C4_abort_on_first_failure wFail "SPACE" docsABC 1 "boom" rfl (by decide)
     (by decide) (by decide)⟩

/-- C5: a space whose content source returns zero documents yields zero
submissions and no raised exception. -/
theorem C5_zero_documents {ε : Type} (w : LocalIngestWorker ε) (space : String)
    (h : w.load space true 1000 10000000 = []) :
    (w.ingest_space space).2 = ([], none) := by
  simp only [LocalIngestWorker.ingest_space, h, ingestLoop]

theorem C5_witness :
    (wEmpty.load "SPACE" true 1000 10000000 = ([] : List Document)) ∧
    (wEmpty.ingest_space "SPACE").2 = ([], none) :=
  ⟨rfl, C5_zero_documents wEmpty "SPACE" rfl⟩

/-- C6: two documents both with text "Hello world" are both submitted (no
deduplication), each carrying the same identifier, the SHA-1 hex digest of
the UTF-8 encoding of "Hello world". -/
theorem C6_duplicate_documents_both_submitted :
    (wHello.ingest_space "SPACE").2 =
      ([⟨"7b502c3a1f48c8609ae212cdfb639dee39673f5e", "Hello world"⟩,
        ⟨"7b502c3a1f48c8609ae212cdfb639dee39673f5e", "Hello world"⟩], none) ∧
    "7b502c3a1f48c8609ae212cdfb639dee39673f5e" =
      sha1Hexdigest (utf8Encode "Hello world") := by
  exact ⟨by decide, by decide⟩

/-- C7: a document with empty text is still submitted, and its identifier is
the SHA-1 hex digest of the empty byte sequence. -/
theorem C7_empty_document_submitted :
    (wEmptyDoc.ingest_space "SPACE").2 =
      ([⟨"da39a3ee5e6b4b0d3255bfef95601890afd80709", ""⟩], none) ∧
    utf8Encode "" = [] ∧
    "da39a3ee5e6b4b0d3255bfef95601890afd80709" = sha1Hexdigest [] := by
  exact ⟨by decide, by decide, by decide⟩

/-- C8: two runs over the same document sequence (same loader, possibly
different non-raising collaborators) produce the same sequence of
identifiers. -/
theorem C8_two_run_determinism {α β : Type} (v : LocalIngestWorker α)
    (w : LocalIngestWorker β) (space : String) (hload : v.load = w.load)
    (hv : ∀ i t, v.ingest_text i t = none) (hw : ∀ i t, w.ingest_text i t = none) :
    ((v.ingest_space space).2.1).map Ingestion.doc_id =
      ((w.ingest_space space).2.1).map Ingestion.doc_id := by
  have ev := ingestLoop_all_ok v.ingest_text (v.load space true 1000 10000000)
    (fun d _ => hv _ _)
  have ew := ingestLoop_all_ok w.ingest_text (w.load space true 1000 10000000)
    (fun d _ => hw _ _)
  have hv' : (v.ingest_space space).2.1 = (v.load space true 1000 10000000).map toIngestion := by
    simp only [LocalIngestWorker.ingest_space, ev]
  have hw' : (w.ingest_space space).2.1 = (w.load space true 1000 10000000).map toIngestion := by
    simp only [LocalIngestWorker.ingest_space, ew]
  rw [hv', hw', hload]

theorem C8_witness :
    (wX1.load = wX2.load) ∧
    (∀ i t, wX1.ingest_text i t = none) ∧
    (∀ i t, wX2.ingest_text i t = none) ∧
    ((wX1.ingest_space "SPACE").2.1).map Ingestion.doc_id =
      ((wX2.ingest_space "SPACE").2.1).map Ingestion.doc_id :=
  ⟨rfl, fun _ _ => rfl, fun _ _ => rfl,
   C8_two_run_determinism wX1 wX2 "SPACE" rfl (fun _ _ => rfl) (fun _ _ => rfl)⟩

/-- C9 counterexample: the claim that no fetching of a later document
precedes the submission of an earlier one is false — with two documents the
single eager load call fetches document 1 before document 0 is submitted. -/
theorem C9_counterexample_fetch_precedes_submit : ¬ submitBeforeLaterFetch 2 := by
  unfold submitBeforeLaterFetch
  decide

/-- C9 (amended): all documents are fetched, in order, by the single eager
load call before any submission occurs; thereafter one document is fully
processed (hashed and submitted) before the next is processed — so the fetch
of a later document precedes the submission of an earlier one, each document
is hashed before it is submitted, and the submission of an earlier document
precedes the hashing of any later one. -/
theorem C9_amended_fetch_all_then_process_sequentially (n i j : Nat)
    (hij : i < j) (hj : j < n) :
    (ingestTrace n).indexOf (Event.fetch i) < (ingestTrace n).indexOf (Event.fetch j) ∧
    (ingestTrace n).indexOf (Event.fetch j) < (ingestTrace n).indexOf (Event.submit i) ∧
    (ingestTrace n).indexOf (Event.hash i) < (ingestTrace n).indexOf (Event.submit i) ∧
    (ingestTrace n).indexOf (Event.submit i) < (ingestTrace n).indexOf (Event.hash j) := by
  have hi : i < n := Nat.lt_trans hij hj
  rw [indexOf_ingestTrace_fetch hi, indexOf_ingestTrace_fetch hj,
    indexOf_ingestTrace_submit hi, indexOf_ingestTrace_hash hi,
    indexOf_ingestTrace_hash hj]
  omega

theorem C9_witness :
    (0 < 1) ∧ (1 < 2) ∧
    ((ingestTrace 2).indexOf (Event.fetch 0) < (ingestTrace 2).indexOf (Event.fetch 1) ∧
     (ingestTrace 2).indexOf (Event.fetch 1) < (ingestTrace 2).indexOf (Event.submit 0) ∧
     (ingestTrace 2).indexOf (Event.hash 0) < (ingestTrace 2).indexOf (Event.submit 0) ∧
     (ingestTrace 2).indexOf (Event.submit 0) < (ingestTrace 2).indexOf (Event.hash 1)) :=
  ⟨by decide, by decide,
   C9_amended_fetch_all_then_process_sequentially 2 0 1 (by decide) (by decide)⟩

/-- C10: `total_documents` and `current_document_count` are set to 0 at
construction and are never modified by `ingest_space` — after any number of
`ingest_space` calls they are still 0. -/
theorem C10_counters_stay_zero {ε : Type} (svc : String → String → Option ε)
    (loader : String → Bool → Nat → Nat → List Document) (spaces : List String) :
    (runSpaces (LocalIngestWorker.init svc loader) spaces).total_documents = 0 ∧
    (runSpaces (LocalIngestWorker.init svc loader) spaces).current_document_count = 0 := by
  rw [runSpaces_total]
  exact ⟨rfl, rfl⟩
